import Mathlib

/-!
# Verification of the announcements CRUD router

Shallow embedding of `src/backend/routers/announcements.py`: a FastAPI router
exposing five operations over a document collection of announcement records,
with an existence-check authorization against a teachers collection.

Modelling decisions, stated once:

* The announcements collection is a list of documents together with a counter
  producing fresh identifiers (the store assigns `_id`s on insert).  Identifier
  strings at the HTTP boundary are decoded by `parseId`; a string that does not
  decode models a malformed `ObjectId` (the `except` branch around
  `ObjectId(announcement_id)`).
* The teachers collection is the list of existing teacher usernames
  (`teachers_collection.find_one({"_id": username})` is a membership test).
* `datetime.fromisoformat` is modelled by an executable parser `fromisoformat`
  for the canonical subset `YYYY-MM-DDTHH:MM:SS` with an optional `+HH:MM` /
  `-HH:MM` offset, returning an integer time value whose order agrees with the
  chronological order of the parsed date-times; unparsable strings (including
  the empty string) yield `none`.  The `.replace('Z', '+00:00')` call applied
  before parsing is modelled exactly by `replaceZ`.
* Raising `HTTPException` is modelled by `Except.error` with an error taxonomy
  `Err`; an operation that raises before its single store write leaves the
  store unchanged, which `stateOf` makes explicit.
* Python truthiness of a string (`if some_string:`) is non-`None` and
  non-empty; the source relies on it in the date validations.
-/

namespace Announcements

/-- Failure taxonomy of the router.  The first six constructors correspond
to the `HTTPException`s raised in the source.  `UncaughtTypeError` models the
`TypeError` Python raises when a naive and an offset-aware date-time are
compared: it is not a `ValueError`, so the `except ValueError` clauses do not
catch it and it escapes the handler as a server error rather than an
`HTTPException` — still before any store write. -/
inductive Err where
  | Unauthorized
  | InvalidDateFormat
  | InvalidDateRange
  | InvalidId
  | NotFound
  | NoFieldsProvided
  | UncaughtTypeError
deriving DecidableEq, Repr

/-- A stored announcement document: `_id` plus the three payload fields.
`expiration_date` is always present in a stored document (create always sets
it and `$set` never removes a field). -/
structure AnnDoc where
  id : Nat
  message : String
  start_date : Option String
  expiration_date : String
deriving DecidableEq, Repr

/-- The `Announcement` request model (pydantic): `message` 1..500 chars
(validated by the framework before the handler runs), optional `start_date`,
required `expiration_date`. -/
structure Announcement where
  message : String
  start_date : Option String
  expiration_date : String
deriving DecidableEq, Repr

/-- The `AnnouncementUpdate` request model: all fields optional, default
`None`.  Pydantic gives `None` both for an omitted field and for an explicit
JSON `null`, so `none` models both. -/
structure AnnouncementUpdate where
  message : Option String
  start_date : Option String
  expiration_date : Option String
deriving DecidableEq, Repr

/-- The announcements collection: stored documents plus the counter from which
the store draws the next fresh `_id`. -/
structure Store where
  nextId : Nat
  docs : List AnnDoc
deriving DecidableEq, Repr

deriving instance DecidableEq for Except

/-! ## Model of `datetime.fromisoformat` and `str.replace('Z', '+00:00')` -/

/-- Decimal value of a digit character, `none` otherwise. -/
def digit? (c : Char) : Option Nat :=
  if c.isDigit then some (c.toNat - 48) else none

/-- Parse exactly two digits. -/
def parse2 : List Char → Option (Nat × List Char)
  | a :: b :: rest =>
    match digit? a, digit? b with
    | some x, some y => some (10 * x + y, rest)
    | _, _ => none
  | _ => none

/-- Parse exactly four digits. -/
def parse4 : List Char → Option (Nat × List Char)
  | a :: b :: c :: d :: rest =>
    match digit? a, digit? b, digit? c, digit? d with
    | some x, some y, some z, some w => some (1000 * x + 100 * y + 10 * z + w, rest)
    | _, _, _, _ => none
  | _ => none

/-- Consume one expected character. -/
def expectChar (c : Char) : List Char → Option (List Char)
  | x :: rest => if x = c then some rest else none
  | [] => none

/-- Gregorian leap year, as `datetime` computes it. -/
def isLeapYear (y : Nat) : Bool :=
  decide (y % 4 = 0 ∧ (¬ y % 100 = 0 ∨ y % 400 = 0))

/-- Days in a month of a given year (months 1..12). -/
def daysInMonth (y mo : Nat) : Nat :=
  if mo = 2 then (if isLeapYear y then 29 else 28)
  else if mo = 4 ∨ mo = 6 ∨ mo = 9 ∨ mo = 11 then 30
  else 31

/-- Days in year `y` before the first of month `mo`. -/
def daysBeforeMonth (y : Nat) : Nat → Nat
  | 0 => 0
  | 1 => 0
  | m + 1 => daysBeforeMonth y m + daysInMonth y m

/-- Days before January 1 of year `y` (counting from year 1, as
`date.toordinal` does). -/
def daysBeforeYear (y : Nat) : Nat :=
  365 * (y - 1) + (y - 1) / 4 + (y - 1) / 400 - (y - 1) / 100

/-- `date.toordinal`: the day number of a calendar-valid date on the real
(proleptic Gregorian) timeline. -/
def toOrdinal (y mo d : Nat) : Nat :=
  daysBeforeYear y + daysBeforeMonth y mo + (d - 1)

/-- Microsecond position of naive fields on the real timeline.  Python
compares naive date-times by their field tuples; for calendar-valid fields
this agrees with comparing these positions (the field-to-timeline map is
strictly monotone), and for aware date-times Python compares the positions
with the UTC offset subtracted, so one scale serves both. -/
def naiveValue (y mo d h mi s us : Nat) : Int :=
  (((toOrdinal y mo d * 86400 + h * 3600 + mi * 60 + s) * 1000000 + us : Nat) : Int)

/-- A parsed Python `datetime`: its position on the real timeline in
microseconds (with the UTC offset already subtracted when aware) and whether
it is offset-aware.  Python compares naive pairs by field tuple and aware
pairs by instant — both coincide with comparing `value` — but comparing a
naive with an aware date-time raises `TypeError`. -/
structure PyDateTime where
  value : Int
  aware : Bool
deriving DecidableEq, Repr

/-- `_parse_hh_mm_ss_ff`: `HH[:MM[:SS[.fff or .ffffff]]]` as (hour, minute,
second, microsecond).  No range validation happens here — CPython validates
the time ranges in the `datetime` constructor and the offset magnitude in
`timezone` — and components are modelled as digit pairs (CPython parses them
with `int()`, whose tolerance for an embedded sign on garbage inputs is an
accident this model does not reproduce). -/
def parseHMSF (cs : List Char) : Option (Nat × Nat × Nat × Nat) :=
  match parse2 cs with
  | none => none
  | some (h, rest) =>
    match rest with
    | [] => some (h, 0, 0, 0)
    | c :: rest1 =>
      if c = ':' then
        match parse2 rest1 with
        | none => none
        | some (mi, rest2) =>
          match rest2 with
          | [] => some (h, mi, 0, 0)
          | c2 :: rest3 =>
            if c2 = ':' then
              match parse2 rest3 with
              | none => none
              | some (s, rest4) =>
                match rest4 with
                | [] => some (h, mi, s, 0)
                | c3 :: rest5 =>
                  if c3 = '.' then
                    match rest5 with
                    | [a, b, c'] =>
                      match digit? a, digit? b, digit? c' with
                      | some x, some y, some z =>
                        some (h, mi, s, (100 * x + 10 * y + z) * 1000)
                      | _, _, _ => none
                    | [a, b, c', d, e, f] =>
                      match digit? a, digit? b, digit? c', digit? d, digit? e, digit? f with
                      | some x, some y, some z, some u, some v, some w =>
                        some (h, mi, s,
                          100000 * x + 10000 * y + 1000 * z + 100 * u + 10 * v + w)
                      | _, _, _, _, _, _ => none
                    | _ => none
                  else none
            else none
      else none

/-- First index of a character in a list. -/
def findCharIdx (c : Char) : List Char → Option Nat
  | [] => none
  | x :: rest => if x = c then some 0 else (findCharIdx c rest).map (· + 1)

/-- Split the time string at the timezone sign, as `_parse_isoformat_time`
does: at the first `-` when one occurs, else at the first `+`, else no
offset part. -/
def splitSign (cs : List Char) : List Char × Option (Char × List Char) :=
  match findCharIdx '-' cs with
  | some i => (cs.take i, some ('-', cs.drop (i + 1)))
  | none =>
    match findCharIdx '+' cs with
    | some i => (cs.take i, some ('+', cs.drop (i + 1)))
    | none => (cs, none)

/-- `_parse_isoformat_date`: exactly `YYYY-MM-DD`, returning the fields and
the characters after position 10. -/
def parseDateChars (cs : List Char) : Option (Nat × Nat × Nat × List Char) :=
  match parse4 cs with
  | none => none
  | some (y, cs1) =>
  match expectChar '-' cs1 with
  | none => none
  | some cs2 =>
  match parse2 cs2 with
  | none => none
  | some (mo, cs3) =>
  match expectChar '-' cs3 with
  | none => none
  | some cs4 =>
  match parse2 cs4 with
  | none => none
  | some (d, cs5) => some (y, mo, d, cs5)

/-- Model of `datetime.fromisoformat`, per its documented contract (the
inverse of `isoformat()`, the grammar accepted by CPython through 3.10 and a
subset of what later versions accept):
`YYYY-MM-DD` alone, or followed by one arbitrary separator character and
`HH[:MM[:SS[.fff or .ffffff]]]`, optionally with offset `±HH:MM`,
`±HH:MM:SS` or `±HH:MM:SS.ffffff`.  The date must be calendar-valid (real
month lengths, leap years), hour ≤ 23, minute and second ≤ 59, and the
offset strictly below 24 hours (offset components themselves are not
range-checked, as in CPython, where only `timezone` bounds the total). -/
def fromisoformat (dt : String) : Option PyDateTime :=
  match parseDateChars dt.data with
  | none => none
  | some (y, mo, d, rest) =>
    if 1 ≤ y ∧ 1 ≤ mo ∧ mo ≤ 12 ∧ 1 ≤ d ∧ d ≤ daysInMonth y mo then
      match rest with
      | [] => some ⟨naiveValue y mo d 0 0 0 0, false⟩
      | [_] => none
      | _ :: tstr =>
        match splitSign tstr with
        | (timestr, none) =>
          match parseHMSF timestr with
          | none => none
          | some (h, mi, s, us) =>
            if h ≤ 23 ∧ mi ≤ 59 ∧ s ≤ 59 then
              some ⟨naiveValue y mo d h mi s us, false⟩
            else none
        | (timestr, some (sgn, tzstr)) =>
          match parseHMSF timestr with
          | none => none
          | some (h, mi, s, us) =>
            if h ≤ 23 ∧ mi ≤ 59 ∧ s ≤ 59 then
              if tzstr.length = 5 ∨ tzstr.length = 8 ∨ tzstr.length = 15 then
                match parseHMSF tzstr with
                | none => none
                | some (oh, omi, os, ous) =>
                  let off : Nat := (oh * 3600 + omi * 60 + os) * 1000000 + ous
                  if off < 86400000000 then
                    some ⟨naiveValue y mo d h mi s us -
                      (if sgn = '+' then (off : Int) else -(off : Int)), true⟩
                  else none
              else none
            else none
    else none

/-- Python's `>=` on two parsed date-times: a naive and an aware one are
incomparable — the comparison raises `TypeError` (`none`) — otherwise the
timeline positions are compared. -/
def pyGe (a b : PyDateTime) : Option Bool :=
  if a.aware = b.aware then some (decide (b.value ≤ a.value)) else none

/-- `str.replace('Z', '+00:00')` on the character list: the pattern is a
single character, so the replacement is exactly character-wise. -/
def replaceZchars : List Char → List Char
  | [] => []
  | c :: rest =>
    if c = 'Z' then '+' :: '0' :: '0' :: ':' :: '0' :: '0' :: replaceZchars rest
    else c :: replaceZchars rest

/-- Model of `s.replace('Z', '+00:00')`. -/
def replaceZ (s : String) : String :=
  ⟨replaceZchars s.data⟩

/-! ## Lexicographic string comparison

Both the store query (`{"$gte": now}` on a string field) and Python's `<=` on
`str` compare strings lexicographically by code point.  The comparison is
defined here directly on the character lists so that it is kernel-computable.
-/

/-- Lexicographic `<` by code point. -/
def charListLt : List Char → List Char → Bool
  | [], [] => false
  | [], _ :: _ => true
  | _ :: _, [] => false
  | a :: as, b :: bs =>
    if a < b then true
    else if a = b then charListLt as bs
    else false

/-- Lexicographic `<=` by code point. -/
def charListLe : List Char → List Char → Bool
  | [], _ => true
  | _ :: _, [] => false
  | a :: as, b :: bs =>
    if a < b then true
    else if a = b then charListLe as bs
    else false

/-- Python's `a < b` on strings. -/
def pyLt (a b : String) : Bool := charListLt a.data b.data

/-- Python's `a <= b` on strings (also the order of the store's `$gte`). -/
def pyLe (a b : String) : Bool := charListLe a.data b.data

/-! ## The five handlers -/

/-- `verify_teacher`: existence check of a teacher record keyed by username;
raises 401 `Unauthorized` otherwise.  The teacher's attributes are not
consumed by this module, so the result carries no data. -/
def verify_teacher (teachers : List String) (username : String) : Except Err Unit :=
  if username ∈ teachers then Except.ok () else Except.error Err.Unauthorized

/-- `get_active_announcements`: the store query
`find({"expiration_date": {"$gte": now}})` (a lexicographic string
comparison), followed by the Python loop keeping documents whose `start_date`
is `None` or `<= now` (also a lexicographic string comparison). -/
def get_active_announcements (store : Store) (now : String) : List AnnDoc :=
  let announcements := store.docs.filter (fun a => pyLe now a.expiration_date)
  announcements.filter (fun a =>
    match a.start_date with
    | none => true
    | some s => pyLe s now)

/-- `get_all_announcements`: authorization check, then every document. -/
def get_all_announcements (teachers : List String) (store : Store) (username : String) :
    Except Err (List AnnDoc) :=
  match verify_teacher teachers username with
  | Except.error e => Except.error e
  | Except.ok _ => Except.ok store.docs

/-- The date validation of `create_announcement` (source lines 83-93):
parse `expiration_date` unconditionally; then, if `start_date` is truthy
(non-`None` and non-empty, Python `if announcement.start_date:`), parse it and
reject `start >= expiration`.  A `ValueError` from parsing becomes 400
`InvalidDateFormat`; the range violation becomes 400 `InvalidDateRange` (the
`HTTPException` raised inside the `try` is not a `ValueError`, so it
propagates). -/
def validateDatesCreate (start_date : Option String) (expiration_date : String) :
    Except Err Unit :=
  match fromisoformat (replaceZ expiration_date) with
  | none => Except.error Err.InvalidDateFormat
  | some exp =>
    match start_date with
    | none => Except.ok ()
    | some s =>
      if s = "" then Except.ok ()
      else
        match fromisoformat (replaceZ s) with
        | none => Except.error Err.InvalidDateFormat
        | some st =>
          match pyGe st exp with
          | none => Except.error Err.UncaughtTypeError
          | some true => Except.error Err.InvalidDateRange
          | some false => Except.ok ()

/-- `create_announcement`: authorization, date validation, then a single
`insert_one` of the document; the returned document carries the freshly
assigned identifier. -/
def create_announcement (teachers : List String) (store : Store) (ann : Announcement)
    (username : String) : Except Err (Store × AnnDoc) :=
  match verify_teacher teachers username with
  | Except.error e => Except.error e
  | Except.ok _ =>
    match validateDatesCreate ann.start_date ann.expiration_date with
    | Except.error e => Except.error e
    | Except.ok _ =>
      let doc : AnnDoc := ⟨store.nextId, ann.message, ann.start_date, ann.expiration_date⟩
      Except.ok (⟨store.nextId + 1, store.docs ++ [doc]⟩, doc)

/-- Model of `ObjectId(announcement_id)`: decode the boundary string to the
store's key type (identifiers are rendered as decimal strings at the
boundary); `none` models the exception on a malformed identifier. -/
def parseId (s : String) : Option Nat :=
  if s.data ≠ [] ∧ s.data.all (fun c => c.isDigit) then
    some (s.data.foldl (fun n c => 10 * n + (c.toNat - 48)) 0)
  else none

/-- First document of a list with the given identifier. -/
def findDoc : List AnnDoc → Nat → Option AnnDoc
  | [], _ => none
  | d :: rest, oid => if d.id = oid then some d else findDoc rest oid

/-- `find_one({"_id": oid})`: first document with the given identifier. -/
def find_doc (store : Store) (oid : Nat) : Option AnnDoc :=
  findDoc store.docs oid

/-- The effective expiration date of an update:
`update_doc.get("expiration_date", existing.get("expiration_date"))` —
the provided value when present, else the stored one. -/
def mergedExp (u : AnnouncementUpdate) (existing : AnnDoc) : String :=
  match u.expiration_date with
  | some v => v
  | none => existing.expiration_date

/-- The effective start date of an update:
`update_doc.get("start_date", existing.get("start_date"))`. -/
def mergedStart (u : AnnouncementUpdate) (existing : AnnDoc) : Option String :=
  match u.start_date with
  | some v => some v
  | none => existing.start_date

/-- The date validation of `update_announcement` (source lines 138-152), on
the merged view: `if exp_date:` parses the effective expiration only when it
is truthy; `if start_date:` parses the effective start only when truthy; the
range comparison `if exp_date and start_date_dt >= expiration_date` runs only
when both were truthy.  The two arms of the outer `if` are the two
possibilities for the truthiness of the effective expiration (which here is
always a present string, since stored documents always carry one). -/
def validateDatesUpdate (start_date : Option String) (exp_date : String) :
    Except Err Unit :=
  if exp_date = "" then
    match start_date with
    | none => Except.ok ()
    | some s =>
      if s = "" then Except.ok ()
      else
        match fromisoformat (replaceZ s) with
        | none => Except.error Err.InvalidDateFormat
        | some _ => Except.ok ()
  else
    match fromisoformat (replaceZ exp_date) with
    | none => Except.error Err.InvalidDateFormat
    | some exp =>
      match start_date with
      | none => Except.ok ()
      | some s =>
        if s = "" then Except.ok ()
        else
          match fromisoformat (replaceZ s) with
          | none => Except.error Err.InvalidDateFormat
          | some st =>
            match pyGe st exp with
            | none => Except.error Err.UncaughtTypeError
            | some true => Except.error Err.InvalidDateRange
            | some false => Except.ok ()

/-- `update_one` with `$set`: replace the first document with the given
identifier (Mongo `update_one` touches at most one document). -/
def replaceFirst : List AnnDoc → Nat → AnnDoc → List AnnDoc
  | [], _, _ => []
  | d :: rest, oid, nd =>
    if d.id = oid then nd :: rest else d :: replaceFirst rest oid nd

/-- The document resulting from `$set`-ting exactly the provided fields of
`update_doc` onto the existing document: provided fields replaced, omitted
fields (and the identifier) untouched. -/
def appliedDoc (u : AnnouncementUpdate) (existing : AnnDoc) : AnnDoc :=
  { id := existing.id
    message :=
      match u.message with
      | some v => v
      | none => existing.message
    start_date := mergedStart u existing
    expiration_date := mergedExp u existing }

/-- `update_announcement`: authorization; decode the identifier (`InvalidId`
on failure); look up the document (`NotFound`); validate the merged dates;
reject an empty update document (`NoFieldsProvided`, checked after the date
validation, as in the source); `$set` exactly the provided fields; re-fetch
and return the updated document.  The final `NotFound` arm models the
re-fetch coming back empty, which cannot happen right after the write. -/
def update_announcement (teachers : List String) (store : Store) (announcement_id : String)
    (announcement : AnnouncementUpdate) (username : String) : Except Err (Store × AnnDoc) :=
  match verify_teacher teachers username with
  | Except.error e => Except.error e
  | Except.ok _ =>
    match parseId announcement_id with
    | none => Except.error Err.InvalidId
    | some oid =>
      match find_doc store oid with
      | none => Except.error Err.NotFound
      | some existing =>
        match validateDatesUpdate (mergedStart announcement existing)
            (mergedExp announcement existing) with
        | Except.error e => Except.error e
        | Except.ok _ =>
          if announcement.message = none ∧ announcement.start_date = none ∧
              announcement.expiration_date = none then
            Except.error Err.NoFieldsProvided
          else
            match find_doc ⟨store.nextId,
                replaceFirst store.docs oid (appliedDoc announcement existing)⟩ oid with
            | some updated =>
              Except.ok (⟨store.nextId,
                replaceFirst store.docs oid (appliedDoc announcement existing)⟩, updated)
            | none => Except.error Err.NotFound

/-- `delete_one({"_id": oid})`: remove the first matching document and report
the deleted count (0 or 1). -/
def removeFirst : List AnnDoc → Nat → List AnnDoc × Nat
  | [], _ => ([], 0)
  | d :: rest, oid =>
    if d.id = oid then (rest, 1)
    else
      let r := removeFirst rest oid
      (d :: r.1, r.2)

/-- `delete_announcement`: authorization; decode the identifier (`InvalidId`);
`delete_one`; `NotFound` when the deleted count is 0, else a confirmation. -/
def delete_announcement (teachers : List String) (store : Store) (announcement_id : String)
    (username : String) : Except Err (Store × String) :=
  match verify_teacher teachers username with
  | Except.error e => Except.error e
  | Except.ok _ =>
    match parseId announcement_id with
    | none => Except.error Err.InvalidId
    | some oid =>
      let result := removeFirst store.docs oid
      if result.2 = 0 then Except.error Err.NotFound
      else Except.ok (⟨store.nextId, result.1⟩, "Announcement deleted successfully")

/-- Effective store after a call: the returned store on success, the caller's
unchanged store when the handler raised (every raise in the source happens
before the handler's single store write). -/
def stateOf {α : Type} (store : Store) : Except Err (Store × α) → Store
  | Except.ok (s, _) => s
  | Except.error _ => store

/-! ## Auxiliary definitions for the window claims -/

/-- The spec's glossary window, taken at its word: the validity window
"(start_date, expiration_date]" contains the current time — lower bound
exclusive, upper bound inclusive, a missing start meaning always open. -/
def inClaimedWindow (a : AnnDoc) (now : String) : Prop :=
  (∀ s, a.start_date = some s → pyLt s now = true) ∧ pyLe now a.expiration_date = true

/-- The window the code implements: both bounds inclusive
(`start_date <= now` and `expiration_date >= now`). -/
def inCodeWindow (a : AnnDoc) (now : String) : Prop :=
  (∀ s, a.start_date = some s → pyLe s now = true) ∧ pyLe now a.expiration_date = true

/-! ## Helper lemmas -/

/-- C1: for every stored announcement record and every timestamp `now`,
`get_active(now)` includes the record iff its `expiration_date` is `>= now`
and its `start_date` is absent or `<= now`, both comparisons being
lexicographic on the ISO-8601 strings themselves. -/
theorem get_active_mem_iff (store : Store) (now : String) (a : AnnDoc) :
    a ∈ get_active_announcements store now ↔
      a ∈ store.docs ∧ pyLe now a.expiration_date = true ∧
        (a.start_date = none ∨ ∃ s, a.start_date = some s ∧ pyLe s now = true) := by
  unfold get_active_announcements
  simp only [List.mem_filter]
  cases h : a.start_date with
  | none => simp [h, and_assoc]
  | some s => simp [h, and_assoc]

/-- C9 counterexample: a record whose `start_date` equals `now` is returned
by `get_active`, yet the spec's half-open window `(start_date,
expiration_date]` does not contain `now`. -/
theorem get_active_boundary_counterexample :
    (⟨0, "m", some "2030-01-01T00:00:00", "2031-01-01T00:00:00"⟩ : AnnDoc) ∈
        get_active_announcements
          ⟨1, [⟨0, "m", some "2030-01-01T00:00:00", "2031-01-01T00:00:00"⟩]⟩
          "2030-01-01T00:00:00" ∧
    ¬ inClaimedWindow (⟨0, "m", some "2030-01-01T00:00:00", "2031-01-01T00:00:00"⟩ : AnnDoc)
        "2030-01-01T00:00:00" := by
  constructor
  · decide
  · intro hw
    exact absurd (hw.1 _ rfl) (by decide)

/-- C9 (amended): an announcement is returned by `get_active` exactly when
the closed window `[start_date, expiration_date]` contains the current time —
both bounds inclusive, a missing `start_date` meaning always open. -/
theorem get_active_mem_iff_window (store : Store) (now : String) (a : AnnDoc) :
    a ∈ get_active_announcements store now ↔ a ∈ store.docs ∧ inCodeWindow a now := by
  unfold get_active_announcements inCodeWindow
  simp only [List.mem_filter]
  cases h : a.start_date with
  | none => simp [h, and_assoc]
  | some s =>
    simp only [h, and_assoc, Option.some.injEq]
    constructor
    · rintro ⟨hmem, hexp, hstart⟩
      exact ⟨hmem, fun t ht => ht ▸ hstart, hexp⟩
    · rintro ⟨hmem, hstart, hexp⟩
      exact ⟨hmem, hexp, hstart s rfl⟩

/-! ## C2: create -/

/-- A document found by identifier bears that identifier. -/
theorem findDoc_id {docs : List AnnDoc} {oid : Nat} {d : AnnDoc}
    (h : findDoc docs oid = some d) : d.id = oid := by
  induction docs with
  | nil => exact Option.noConfusion h
  | cons a rest ih =>
    unfold findDoc at h
    by_cases ha : a.id = oid
    · rw [if_pos ha] at h
      cases h
      exact ha
    · rw [if_neg ha] at h
      exact ih h

/-- Replacing the first match makes lookup of that identifier return the
newly written document. -/
theorem findDoc_replaceFirst {docs : List AnnDoc} {oid : Nat} {existing nd : AnnDoc}
    (h : findDoc docs oid = some existing) (hnd : nd.id = oid) :
    findDoc (replaceFirst docs oid nd) oid = some nd := by
  induction docs with
  | nil => exact Option.noConfusion h
  | cons a rest ih =>
    by_cases ha : a.id = oid
    · simp [replaceFirst, ha, findDoc, hnd]
    · unfold findDoc at h
      rw [if_neg ha] at h
      simp [replaceFirst, ha, findDoc, ih h]

/-- Replacing the first match with some identifier keeps every document with
a different identifier in the list. -/
theorem mem_replaceFirst_of_ne {docs : List AnnDoc} {oid : Nat} {nd d : AnnDoc}
    (hd : d ∈ docs) (hne : d.id ≠ oid) : d ∈ replaceFirst docs oid nd := by
  induction docs with
  | nil => simp at hd
  | cons a rest ih =>
    rcases List.mem_cons.mp hd with rfl | h2
    · unfold replaceFirst
      rw [if_neg hne]
      exact List.mem_cons_self _ _
    · unfold replaceFirst
      by_cases ha : a.id = oid
      · rw [if_pos ha]
        exact List.mem_cons_of_mem _ h2
      · rw [if_neg ha]
        exact List.mem_cons_of_mem _ (ih h2)

/-- Inversion of a successful update: the returned document is exactly the
stored document with the provided fields overlaid, and the returned store has
that document written over the first match. -/
theorem update_ok_inversion {teachers : List String} {store : Store}
    {announcement_id : String} {upd : AnnouncementUpdate} {username : String}
    {st : Store} {doc : AnnDoc} {oid : Nat} {existing : AnnDoc}
    (hid : parseId announcement_id = some oid)
    (hfind : find_doc store oid = some existing)
    (h : update_announcement teachers store announcement_id upd username =
      Except.ok (st, doc)) :
    doc = appliedDoc upd existing ∧
    st = ⟨store.nextId, replaceFirst store.docs oid (appliedDoc upd existing)⟩ := by
  unfold update_announcement at h
  cases hver : verify_teacher teachers username with
  | error e =>
    rw [hver] at h
    simp at h
  | ok u =>
    simp only [hver, hid, hfind] at h
    cases hval : validateDatesUpdate (mergedStart upd existing) (mergedExp upd existing) with
    | error e =>
      rw [hval] at h
      simp at h
    | ok u2 =>
      simp only [hval] at h
      by_cases hem : upd.message = none ∧ upd.start_date = none ∧ upd.expiration_date = none
      · rw [if_pos hem] at h
        simp at h
      · rw [if_neg hem] at h
        have hnd : (appliedDoc upd existing).id = oid := by
          have : existing.id = oid := findDoc_id hfind
          simpa [appliedDoc] using this
        have hf2 : find_doc
            ⟨store.nextId, replaceFirst store.docs oid (appliedDoc upd existing)⟩ oid =
            some (appliedDoc upd existing) := findDoc_replaceFirst hfind hnd
        simp only [hf2] at h
        simp only [Except.ok.injEq, Prod.mk.injEq] at h
        exact ⟨h.2.symm, h.1.symm⟩

/-! ## C6: frame property of update -/

/-- C6: for every successful update, only the explicitly supplied fields
change: each omitted field keeps its stored value, each supplied field takes
the supplied value, the record's identifier is unchanged, and every other
stored document (and the store counter) is untouched. -/
theorem update_frame (teachers : List String) (store : Store) (announcement_id : String)
    (upd : AnnouncementUpdate) (username : String) (st : Store) (doc : AnnDoc)
    (oid : Nat) (existing : AnnDoc)
    (hid : parseId announcement_id = some oid)
    (hfind : find_doc store oid = some existing)
    (h : update_announcement teachers store announcement_id upd username =
      Except.ok (st, doc)) :
    doc.id = existing.id ∧
    (upd.message = none → doc.message = existing.message) ∧
    (upd.start_date = none → doc.start_date = existing.start_date) ∧
    (upd.expiration_date = none → doc.expiration_date = existing.expiration_date) ∧
    (∀ m, upd.message = some m → doc.message = m) ∧
    (∀ s, upd.start_date = some s → doc.start_date = some s) ∧
    (∀ x, upd.expiration_date = some x → doc.expiration_date = x) ∧
    st.nextId = store.nextId ∧
    (∀ d ∈ store.docs, d.id ≠ oid → d ∈ st.docs) := by
  obtain ⟨hdoc, hst⟩ := update_ok_inversion hid hfind h
  subst hdoc
  subst hst
  refine ⟨rfl, ?_, ?_, ?_, ?_, ?_, ?_, rfl, ?_⟩
  · intro hm; simp [appliedDoc, hm]
  · intro hs; simp [appliedDoc, mergedStart, hs]
  · intro hx; simp [appliedDoc, mergedExp, hx]
  · intro m hm; simp [appliedDoc, hm]
  · intro s hs; simp [appliedDoc, mergedStart, hs]
  · intro x hx; simp [appliedDoc, mergedExp, hx]
  · intro d hd hne
    exact mem_replaceFirst_of_ne hd hne

/-- Witness for `update_frame`: a concrete update of the message alone keeps
the identifier and the store counter. -/
theorem update_frame_witness :
    (⟨0, "m2", some "2030-01-01T00:00:00", "2031-01-01T00:00:00"⟩ : AnnDoc).id =
      (⟨0, "m", some "2030-01-01T00:00:00", "2031-01-01T00:00:00"⟩ : AnnDoc).id ∧
    (⟨1, [⟨0, "m2", some "2030-01-01T00:00:00", "2031-01-01T00:00:00"⟩]⟩ : Store).nextId =
      (⟨1, [⟨0, "m", some "2030-01-01T00:00:00", "2031-01-01T00:00:00"⟩]⟩ : Store).nextId :=
  ⟨(update_frame ["t"] ⟨1, [⟨0, "m", some "2030-01-01T00:00:00", "2031-01-01T00:00:00"⟩]⟩
      "0" ⟨some "m2", none, none⟩ "t"
      ⟨1, [⟨0, "m2", some "2030-01-01T00:00:00", "2031-01-01T00:00:00"⟩]⟩
      ⟨0, "m2", some "2030-01-01T00:00:00", "2031-01-01T00:00:00"⟩ 0
      ⟨0, "m", some "2030-01-01T00:00:00", "2031-01-01T00:00:00"⟩
      (by decide) (by decide) (by decide)).1,
   (update_frame ["t"] ⟨1, [⟨0, "m", some "2030-01-01T00:00:00", "2031-01-01T00:00:00"⟩]⟩
      "0" ⟨some "m2", none, none⟩ "t"
      ⟨1, [⟨0, "m2", some "2030-01-01T00:00:00", "2031-01-01T00:00:00"⟩]⟩
      ⟨0, "m2", some "2030-01-01T00:00:00", "2031-01-01T00:00:00"⟩ 0
      ⟨0, "m", some "2030-01-01T00:00:00", "2031-01-01T00:00:00"⟩
      (by decide) (by decide) (by decide)).2.2.2.2.2.2.2.1⟩

/-! ## C10: null fields are omitted fields -/

/-- C10: in an update request a field carrying JSON `null` is treated exactly
like an omitted field — pydantic delivers both as `None` and only non-`None`
fields enter `update_doc` — so the stored value is retained.  Consequently a
`start_date`, once set, can never be put back to absent through update, and a
successful update always leaves the record with a (never-removed)
`expiration_date`, namely the effective merged one. -/
theorem update_null_field_omitted (teachers : List String) (store : Store)
    (announcement_id : String) (upd : AnnouncementUpdate) (username : String)
    (st : Store) (doc : AnnDoc) (oid : Nat) (existing : AnnDoc)
    (hid : parseId announcement_id = some oid)
    (hfind : find_doc store oid = some existing)
    (h : update_announcement teachers store announcement_id upd username =
      Except.ok (st, doc)) :
    (upd.start_date = none → doc.start_date = existing.start_date) ∧
    (existing.start_date ≠ none → doc.start_date ≠ none) ∧
    doc.expiration_date = mergedExp upd existing := by
  obtain ⟨hdoc, hst⟩ := update_ok_inversion hid hfind h
  subst hdoc
  refine ⟨?_, ?_, rfl⟩
  · intro hs; simp [appliedDoc, mergedStart, hs]
  · intro hne
    cases hu : upd.start_date with
    | some v => simp [appliedDoc, mergedStart, hu]
    | none =>
      simp only [appliedDoc, mergedStart, hu]
      exact hne

/-- Witness for `update_null_field_omitted`: after a concrete message-only
update of a record with a start date, the start date is still present. -/
theorem update_null_field_omitted_witness :
    (⟨0, "m3", some "2030-01-01T00:00:00", "2031-01-01T00:00:00"⟩ : AnnDoc).start_date ≠
      none :=
  (update_null_field_omitted ["t"]
      ⟨1, [⟨0, "m", some "2030-01-01T00:00:00", "2031-01-01T00:00:00"⟩]⟩
      "0" ⟨some "m3", none, none⟩ "t"
      ⟨1, [⟨0, "m3", some "2030-01-01T00:00:00", "2031-01-01T00:00:00"⟩]⟩
      ⟨0, "m3", some "2030-01-01T00:00:00", "2031-01-01T00:00:00"⟩ 0
      ⟨0, "m", some "2030-01-01T00:00:00", "2031-01-01T00:00:00"⟩
      (by decide) (by decide) (by decide)).2.1 (by decide)

/-! ## C7: delete -/

/-- When lookup finds nothing, `delete_one` removes nothing and reports
count 0. -/
theorem removeFirst_of_none {docs : List AnnDoc} {oid : Nat}
    (h : findDoc docs oid = none) : removeFirst docs oid = (docs, 0) := by
  induction docs with
  | nil => rfl
  | cons a rest ih =>
    unfold findDoc at h
    by_cases ha : a.id = oid
    · rw [if_pos ha] at h
      exact Option.noConfusion h
    · rw [if_neg ha] at h
      simp [removeFirst, ha, ih h]

/-- When lookup finds a document, `delete_one` reports count 1. -/
theorem removeFirst_of_some {docs : List AnnDoc} {oid : Nat} {existing : AnnDoc}
    (h : findDoc docs oid = some existing) : (removeFirst docs oid).2 = 1 := by
  induction docs with
  | nil => exact Option.noConfusion h
  | cons a rest ih =>
    unfold findDoc at h
    by_cases ha : a.id = oid
    · simp [removeFirst, ha]
    · rw [if_neg ha] at h
      simp [removeFirst, ha, ih h]

/-- With pairwise-distinct stored identifiers, the list left by `delete_one`
holds no document with the removed identifier. -/
theorem removeFirst_no_id {docs : List AnnDoc} {oid : Nat}
    (hnodup : (docs.map AnnDoc.id).Nodup) :
    ∀ d ∈ (removeFirst docs oid).1, d.id ≠ oid := by
  induction docs with
  | nil =>
    intro d hd
    simp [removeFirst] at hd
  | cons a rest ih =>
    rw [List.map_cons, List.nodup_cons] at hnodup
    obtain ⟨hna, hrest⟩ := hnodup
    intro d hd hdid
    by_cases ha : a.id = oid
    · simp only [removeFirst, if_pos ha] at hd
      exact hna (by rw [ha, ← hdid]; exact List.mem_map_of_mem _ hd)
    · simp only [removeFirst, if_neg ha, List.mem_cons] at hd
      rcases hd with rfl | hd
      · exact ha hdid
      · exact ih hrest d hd hdid

/-- A list without the identifier yields an empty lookup. -/
theorem findDoc_eq_none {l : List AnnDoc} {oid : Nat}
    (h : ∀ d ∈ l, d.id ≠ oid) : findDoc l oid = none := by
  induction l with
  | nil => rfl
  | cons a rest ih =>
    unfold findDoc
    rw [if_neg (h a (List.mem_cons_self a rest))]
    exact ih (fun d hd => h d (List.mem_cons_of_mem a hd))

/-- C7: for every authorized delete with a well-formed identifier: when no
record with that identifier exists the call fails with `NotFound` and the
store is unchanged; when the record exists the call removes it (and only it —
no record with that identifier remains, given pairwise-distinct stored
identifiers), returns the confirmation message, and an immediately subsequent
delete of the same identifier fails with `NotFound`. -/
theorem delete_spec (teachers : List String) (store : Store) (announcement_id : String)
    (username : String) (hauth : username ∈ teachers) (oid : Nat)
    (hid : parseId announcement_id = some oid)
    (hnodup : (store.docs.map AnnDoc.id).Nodup) :
    (find_doc store oid = none →
        delete_announcement teachers store announcement_id username =
          Except.error Err.NotFound ∧
        stateOf store (delete_announcement teachers store announcement_id username) =
          store) ∧
    (∀ existing, find_doc store oid = some existing →
        delete_announcement teachers store announcement_id username =
          Except.ok (⟨store.nextId, (removeFirst store.docs oid).1⟩,
            "Announcement deleted successfully") ∧
        (∀ d ∈ (removeFirst store.docs oid).1, d.id ≠ oid) ∧
        delete_announcement teachers ⟨store.nextId, (removeFirst store.docs oid).1⟩
            announcement_id username = Except.error Err.NotFound) := by
  have hver : verify_teacher teachers username = Except.ok () := by
    simp [verify_teacher, hauth]
  constructor
  · intro hnone
    have h0 : removeFirst store.docs oid = (store.docs, 0) := removeFirst_of_none hnone
    have hc : delete_announcement teachers store announcement_id username =
        Except.error Err.NotFound := by
      unfold delete_announcement
      simp only [hver, hid, h0]
      simp
    exact ⟨hc, by rw [hc]; rfl⟩
  · intro existing hsome
    have h1 : (removeFirst store.docs oid).2 = 1 := removeFirst_of_some hsome
    have hno : ∀ d ∈ (removeFirst store.docs oid).1, d.id ≠ oid :=
      removeFirst_no_id hnodup
    refine ⟨?_, hno, ?_⟩
    · unfold delete_announcement
      simp only [hver, hid, h1]
      simp
    · have hfind2 : findDoc (removeFirst store.docs oid).1 oid = none :=
        findDoc_eq_none hno
      have h0 : removeFirst (removeFirst store.docs oid).1 oid =
          ((removeFirst store.docs oid).1, 0) := removeFirst_of_none hfind2
      unfold delete_announcement
      simp only [hver, hid, h0]
      simp

/-- Witness for `delete_spec`: a concrete delete of an existing record
succeeds with the confirmation message. -/
theorem delete_spec_witness :
    delete_announcement ["t"] ⟨1, [⟨0, "m", none, "2031-01-01T00:00:00"⟩]⟩ "0" "t" =
      Except.ok (⟨1, []⟩, "Announcement deleted successfully") :=
  ((delete_spec ["t"] ⟨1, [⟨0, "m", none, "2031-01-01T00:00:00"⟩]⟩ "0" "t"
      (by decide) 0 (by decide) (by decide)).2
    ⟨0, "m", none, "2031-01-01T00:00:00"⟩ (by decide)).1

/-! ## C8: authorization gate -/

/-- The create date validation never fails with `Unauthorized` (its failures
are `InvalidDateFormat`, `InvalidDateRange` or the uncaught `TypeError`). -/
theorem validateDatesCreate_ne_unauthorized (s : Option String) (e' : String) :
    validateDatesCreate s e' ≠ Except.error Err.Unauthorized := by
  intro h
  unfold validateDatesCreate at h
  repeat' split at h
  all_goals simp_all

/-- The update date validation never fails with `Unauthorized`. -/
theorem validateDatesUpdate_ne_unauthorized (s : Option String) (e' : String) :
    validateDatesUpdate s e' ≠ Except.error Err.Unauthorized := by
  intro h
  unfold validateDatesUpdate at h
  repeat' split at h
  all_goals simp_all

/-- C8: each of `get_all`, `create`, `update` and `delete` fails with
`Unauthorized` — with the store untouched — whenever no teacher record with
the given username exists, for arbitrary payloads and identifiers; and the
mere existence of the teacher record suffices for authorization: with it,
none of the operations ever raises `Unauthorized` (and `get_all` returns
every stored record). -/
theorem authorization_gate (teachers : List String) (store : Store) (username : String)
    (ann : Announcement) (announcement_id : String) (upd : AnnouncementUpdate) :
    (username ∉ teachers →
        get_all_announcements teachers store username = Except.error Err.Unauthorized ∧
        create_announcement teachers store ann username = Except.error Err.Unauthorized ∧
        update_announcement teachers store announcement_id upd username =
          Except.error Err.Unauthorized ∧
        delete_announcement teachers store announcement_id username =
          Except.error Err.Unauthorized ∧
        stateOf store (create_announcement teachers store ann username) = store ∧
        stateOf store (update_announcement teachers store announcement_id upd username) =
          store ∧
        stateOf store (delete_announcement teachers store announcement_id username) =
          store) ∧
    (username ∈ teachers →
        get_all_announcements teachers store username = Except.ok store.docs ∧
        create_announcement teachers store ann username ≠
          Except.error Err.Unauthorized ∧
        update_announcement teachers store announcement_id upd username ≠
          Except.error Err.Unauthorized ∧
        delete_announcement teachers store announcement_id username ≠
          Except.error Err.Unauthorized) := by
  constructor
  · intro hno
    have hver : verify_teacher teachers username = Except.error Err.Unauthorized := by
      simp [verify_teacher, hno]
    have h1 : get_all_announcements teachers store username =
        Except.error Err.Unauthorized := by
      unfold get_all_announcements
      simp only [hver]
    have h2 : create_announcement teachers store ann username =
        Except.error Err.Unauthorized := by
      unfold create_announcement
      simp only [hver]
    have h3 : update_announcement teachers store announcement_id upd username =
        Except.error Err.Unauthorized := by
      unfold update_announcement
      simp only [hver]
    have h4 : delete_announcement teachers store announcement_id username =
        Except.error Err.Unauthorized := by
      unfold delete_announcement
      simp only [hver]
    exact ⟨h1, h2, h3, h4, by rw [h2]; rfl, by rw [h3]; rfl, by rw [h4]; rfl⟩
  · intro hyes
    have hver : verify_teacher teachers username = Except.ok () := by
      simp [verify_teacher, hyes]
    refine ⟨?_, ?_, ?_, ?_⟩
    · unfold get_all_announcements
      simp only [hver]
    · intro h
      unfold create_announcement at h
      simp only [hver] at h
      cases hval : validateDatesCreate ann.start_date ann.expiration_date with
      | error e =>
        simp only [hval] at h
        obtain rfl : e = Err.Unauthorized := by simpa using h
        exact validateDatesCreate_ne_unauthorized _ _ hval
      | ok u => simp only [hval] at h; simp at h
    · intro h
      unfold update_announcement at h
      simp only [hver] at h
      cases hpid : parseId announcement_id with
      | none => simp only [hpid] at h; simp at h
      | some oid =>
        simp only [hpid] at h
        cases hfd : find_doc store oid with
        | none => simp only [hfd] at h; simp at h
        | some existing =>
          simp only [hfd] at h
          cases hval : validateDatesUpdate (mergedStart upd existing)
              (mergedExp upd existing) with
          | error e =>
            simp only [hval] at h
            obtain rfl : e = Err.Unauthorized := by simpa using h
            exact validateDatesUpdate_ne_unauthorized _ _ hval
          | ok u2 =>
            simp only [hval] at h
            by_cases hem : upd.message = none ∧ upd.start_date = none ∧
                upd.expiration_date = none
            · simp only [if_pos hem] at h; simp at h
            · simp only [if_neg hem] at h
              cases hf2 : find_doc
                  ⟨store.nextId, replaceFirst store.docs oid (appliedDoc upd existing)⟩
                  oid with
              | none => simp only [hf2] at h; simp at h
              | some u => simp only [hf2] at h; simp at h
    · intro h
      unfold delete_announcement at h
      simp only [hver] at h
      cases hpid : parseId announcement_id with
      | none => simp only [hpid] at h; simp at h
      | some oid =>
        simp only [hpid] at h
        by_cases h0 : (removeFirst store.docs oid).2 = 0
        · simp only [if_pos h0] at h; simp at h
        · simp only [if_neg h0] at h; simp at h

/-- Witness for `authorization_gate`: with no matching teacher record a
concrete `get_all` fails with `Unauthorized`; with one, it succeeds. -/
theorem authorization_gate_witness :
    get_all_announcements ["t"] ⟨0, []⟩ "u" = Except.error Err.Unauthorized ∧
    get_all_announcements ["t"] ⟨0, []⟩ "t" = Except.ok [] :=
  ⟨((authorization_gate ["t"] ⟨0, []⟩ "u" ⟨"m", none, "x"⟩ "0" ⟨none, none, none⟩).1
      (by decide)).1,
   ((authorization_gate ["t"] ⟨0, []⟩ "t" ⟨"m", none, "x"⟩ "0" ⟨none, none, none⟩).2
      (by decide)).1⟩

end Announcements
